import Mathlib

/-!
Verification development for the in-game scripting console of the
`nothing` repository.

The repository ships `src/ui/console.c` (the embedding glue: the native
callback `rect_apply_force`, console creation/registration, and the
read→eval→collect event handler).  The script runtime itself
(`script/expr`, `script/parser`, `script/interpreter`, `script/gc`,
`script/scope`) is declared in headers but its sources are not part of
this tree, so those components are modelled from the specification
(each such definition is marked `Modelled from the spec:` in its doc
comment); `console.c` is translated directly.

Modelling conventions:
  * C numbers are a single floating-point scalar; every numeric literal
    exercised here is integral, so the model uses `Int` for the numeric
    payload.
  * A C read through the wrong union member (`.cons->car` on a non-pair,
    `.atom->num` on a non-number, `.atom->str` on a non-symbol/string)
    is undefined behavior; the model makes those accessors partial
    (`Option`) and propagates `none` for "undefined".
  * Side effects (stdout, stderr, force application, GC invocation,
    log lines) are recorded as an explicit event trace, so temporal
    claims become statements about traces.
-/

namespace NothingGame

/-- Modelled from the spec: the sole host-supplied native callable
registered by the console (`rect_apply_force`, console.c:48).  A C
`Native` wraps a raw function pointer; the model enumerates the
functions that actually occur. -/
inductive NativeName where
  | rect_apply_force
deriving DecidableEq, Repr

/-- Modelled from the spec: the opaque context pointer captured by a
`Native` value.  The only context ever captured is the `Level` handle
passed at registration (console.c:102). -/
inductive CtxHandle where
  | theLevel
deriving DecidableEq, Repr

/-- Modelled from the spec: §3 Value model — tagged union with variants
Nil, Number (floating-point scalar, modelled as `Int`, see header),
Symbol, String, Pair, and Native (function pointer plus one opaque
context value). -/
inductive Expr where
  | nil
  | number (n : Int)
  | symbol (s : String)
  | str (s : String)
  | cons (car cdr : Expr)
  | native (f : NativeName) (ctx : CtxHandle)
deriving DecidableEq, Repr

/-- Translated from the `CAR(expr)` access pattern (`expr.cons->car`):
defined only on pairs; on any other variant the C read is undefined
behavior, modelled as `none`. -/
def car : Expr → Option Expr
  | Expr.cons a _ => some a
  | _ => none

/-- Translated from the `CDR(expr)` access pattern (`expr.cons->cdr`):
defined only on pairs. -/
def cdr : Expr → Option Expr
  | Expr.cons _ d => some d
  | _ => none

/-- Translated from the `expr.atom->str` access pattern: the symbol and
string payloads share one union slot, so the read is defined on both;
on any other variant it is undefined behavior. -/
def atomStr : Expr → Option String
  | Expr.symbol s => some s
  | Expr.str s => some s
  | _ => none

/-- Translated from the `expr.atom->num` access pattern: defined only on
a number atom; on any other variant it is undefined behavior. -/
def atomNum : Expr → Option Int
  | Expr.number n => some n
  | _ => none

/-- Renders an expression both as a standalone S-expression (first
component) and as the rendering it gets as the tail of a list (second
component: close the parenthesis at `Nil`, a space-separated element
for a pair, a dotted atom otherwise).  A single structural recursion so
the serializer evaluates inside the kernel. -/
def sexprParts : Expr → String × String
  | Expr.nil => ("()", ")")
  | Expr.number n => (toString n, " . " ++ toString n ++ ")")
  | Expr.symbol s => (s, " . " ++ s ++ ")")
  | Expr.str s => ("\"" ++ s ++ "\"", " . " ++ "\"" ++ s ++ "\"" ++ ")")
  | Expr.native _ _ => ("<native>", " . " ++ "<native>" ++ ")")
  | Expr.cons a d =>
      ("(" ++ (sexprParts a).1 ++ (sexprParts d).2,
       " " ++ (sexprParts a).1 ++ (sexprParts d).2)

/-- Modelled from the spec: §6 "A debug serializer that renders any
Value back to its textual S-expression form" (`print_expr_as_sexpr`). -/
def toSexpr (e : Expr) : String := (sexprParts e).1

/-- Modelled from the spec: §4.2 lookup over one frame's binding list —
a `Pair`-based list of (symbol, value) bindings, newest first; linear
scan comparing symbol content. -/
def lookupList : Expr → String → Option Expr
  | Expr.cons (Expr.cons (Expr.symbol s) v) rest, name =>
      if s = name then some v else lookupList rest name
  | _, _ => none

/-- Modelled from the spec: §4.2 `lookup` — scan the local binding list,
then the parent chain; unbound when exhausted.  A scope chain expression
is `Pair(bindingList, parentChain)` (console.c:95 builds the empty chain
as `CONS(NIL, NIL)`). -/
def scopeLookup : Expr → String → Option Expr
  | Expr.cons bindings parent, name =>
      match lookupList bindings name with
      | some v => some v
      | none => scopeLookup parent name
  | _, _ => none

/-- Modelled from the spec: §4.2 `bind` / `set_scope_value` — prepends a
new (symbol, value) pair to the chain's own binding list (shadowing, not
mutation). -/
def set_scope_value (scope : Expr) (sym : Expr) (value : Expr) : Expr :=
  match scope with
  | Expr.cons bindings parent => Expr.cons (Expr.cons (Expr.cons sym value) bindings) parent
  | e => e

/-- Tokens of the reader: parentheses, bare atoms, and string literals. -/
inductive Token where
  | lparen
  | rparen
  | atomTok (s : String)
  | strTok (s : String)
deriving DecidableEq, Repr

/-- Tokenizer mode: outside any token, inside a bare token, or inside a
string literal (accumulators kept reversed). -/
inductive Mode where
  | normal
  | bare (acc : List Char)
  | quoted (acc : List Char)

/-- Modelled from the spec: §4.3 grammar — whitespace-delimited tokens,
`(` opens a list, `)` closes it; a quoted run of characters is a string
literal (§3 lists `String` as a reader-supported literal, and Scenario A
feeds one). -/
def tokenizeAux : List Char → Mode → List Token
  | [], Mode.normal => []
  | [], Mode.bare acc => [Token.atomTok (String.mk acc.reverse)]
  | [], Mode.quoted acc => [Token.strTok (String.mk acc.reverse)]
  | c :: rest, Mode.normal =>
      if c.isWhitespace then tokenizeAux rest Mode.normal
      else if c == '(' then Token.lparen :: tokenizeAux rest Mode.normal
      else if c == ')' then Token.rparen :: tokenizeAux rest Mode.normal
      else if c == '"' then tokenizeAux rest (Mode.quoted [])
      else tokenizeAux rest (Mode.bare [c])
  | c :: rest, Mode.bare acc =>
      if c.isWhitespace then Token.atomTok (String.mk acc.reverse) :: tokenizeAux rest Mode.normal
      else if c == '(' then
        Token.atomTok (String.mk acc.reverse) :: Token.lparen :: tokenizeAux rest Mode.normal
      else if c == ')' then
        Token.atomTok (String.mk acc.reverse) :: Token.rparen :: tokenizeAux rest Mode.normal
      else if c == '"' then Token.atomTok (String.mk acc.reverse) :: tokenizeAux rest (Mode.quoted [])
      else tokenizeAux rest (Mode.bare (c :: acc))
  | c :: rest, Mode.quoted acc =>
      if c == '"' then Token.strTok (String.mk acc.reverse) :: tokenizeAux rest Mode.normal
      else tokenizeAux rest (Mode.quoted (c :: acc))

/-- Tokenizes a source line. -/
def tokenize (s : String) : List Token := tokenizeAux s.toList Mode.normal

/-- Accumulates the value of a digit run. -/
def digitsToNatAux : Nat → List Char → Nat
  | acc, [] => acc
  | acc, c :: rest => digitsToNatAux (acc * 10 + (c.toNat - '0'.toNat)) rest

/-- Modelled from the spec: "a bare token that parses as a
floating-point literal becomes `Number`" — restricted to integer
literals (optionally signed), which covers every numeral the usage
surface exercises. -/
def parseNumLit (s : String) : Option Int :=
  match s.toList with
  | [] => none
  | '-' :: rest =>
      if rest.isEmpty then none
      else if rest.all Char.isDigit then some (-(digitsToNatAux 0 rest : Int))
      else none
  | cs =>
      if cs.all Char.isDigit then some (digitsToNatAux 0 cs : Int)
      else none

/-- Modelled from the spec: a bare token becomes a `Number` when it is a
numeric literal, otherwise a `Symbol`. -/
def mkAtom (s : String) : Expr :=
  match parseNumLit s with
  | some n => Expr.number n
  | none => Expr.symbol s

mutual
/-- Modelled from the spec: §4.3 — parses one expression from the token
stream.  The fuel argument only bounds recursion depth; callers supply
enough for any input of the given length. -/
def parseOne : Nat → List Token → Except String (Expr × List Token)
  | 0, _ => Except.error "reader recursion limit exceeded"
  | Nat.succ fuel, ts =>
      match ts with
      | [] => Except.error "unexpected end of input"
      | Token.atomTok s :: rest => Except.ok (mkAtom s, rest)
      | Token.strTok s :: rest => Except.ok (Expr.str s, rest)
      | Token.rparen :: _ => Except.error "unexpected closing paren"
      | Token.lparen :: rest => parseList fuel rest

/-- Modelled from the spec: §4.3 — parses the elements of a list up to
the closing parenthesis, building a right-nested `Pair` chain terminated
by `Nil`; a missing closing parenthesis is a failure. -/
def parseList : Nat → List Token → Except String (Expr × List Token)
  | 0, _ => Except.error "reader recursion limit exceeded"
  | Nat.succ fuel, ts =>
      match ts with
      | [] => Except.error "unbalanced parentheses"
      | Token.rparen :: rest => Except.ok (Expr.nil, rest)
      | ts2 =>
          match parseOne fuel ts2 with
          | Except.error m => Except.error m
          | Except.ok (head, rest) =>
              match parseList fuel rest with
              | Except.error m => Except.error m
              | Except.ok (tailE, rest2) => Except.ok (Expr.cons head tailE, rest2)
end

/-- Modelled from the spec: §3 ParseResult — either a successful
expression, or a failure carrying a human-readable message and no
expression. -/
inductive ParseResult where
  | ok (e : Expr)
  | err (msg : String)
deriving DecidableEq, Repr

/-- The `is_error` flag of a ParseResult. -/
def ParseResult.is_error : ParseResult → Bool
  | ParseResult.ok _ => false
  | ParseResult.err _ => true

/-- Modelled from the spec: §4.3 `read(heap, text)` /
`read_expr_from_string` — tokenize then parse one expression; empty
input and unbalanced parentheses are failures with a descriptive
message. -/
def read_expr_from_string (s : String) : ParseResult :=
  match parseOne (2 * (tokenize s).length + 2) (tokenize s) with
  | Except.ok (e, _) => ParseResult.ok e
  | Except.error msg => ParseResult.err msg

/-- Modelled from the spec: §3 EvalResult — either a successful result
expression or a failure whose payload is the offending expression
itself (no diagnostic string). -/
inductive EvalResult where
  | success (e : Expr)
  | failure (e : Expr)
deriving DecidableEq, Repr

/-- The `is_error` flag of an EvalResult. -/
def EvalResult.is_error : EvalResult → Bool
  | EvalResult.success _ => false
  | EvalResult.failure _ => true

/-- Modelled from the spec: §4.4 `eval_success(expr)` — the uniform
constructor for a passing EvalResult. -/
def eval_success (e : Expr) : EvalResult := EvalResult.success e

/-- Modelled from the spec: a physics body (`Rigid_rect`) reachable from
the console's `Level` handle, carrying its accumulated applied force. -/
structure RigidRect where
  name : String
  force_x : Int
  force_y : Int
deriving DecidableEq, Repr

/-- Modelled from the spec: the set of simulation entities behind the
`Level` handle. -/
abbrev Level := List RigidRect

/-- Modelled from the spec: `level_rigid_rect(level, id)` — looks up a
physics body by name, `none` when absent. -/
def level_rigid_rect (level : Level) (id : String) : Option RigidRect :=
  level.find? (fun r => r.name == id)

/-- Modelled from the spec: `rigid_rect_apply_force` — applies (adds) a
force vector to a body. -/
def rigid_rect_apply_force (r : RigidRect) (fx fy : Int) : RigidRect :=
  { r with force_x := r.force_x + fx, force_y := r.force_y + fy }

/-- Applies a force to the first body with the given name (the body
`level_rigid_rect` finds). -/
def level_apply_force : Level → String → Int → Int → Level
  | [], _, _, _ => []
  | r :: rest, id, fx, fy =>
      if r.name == id then rigid_rect_apply_force r fx fy :: rest
      else r :: level_apply_force rest id fx fy

/-- Colors used by the console log (console.c:28-29). -/
inductive Color where
  | foreground
  | error
deriving DecidableEq, Repr

/-- Observable events of one console round, in program order: the
parser call, the evaluator call, stdout/stderr prints, force
application, the error-payload print, the explicit `gc_collect` call
with its root argument, log pushes, and clearing the edit field. -/
inductive Ev where
  | readCall (source : String)
  | evalCall (e : Expr)
  | stdoutLine (s : String)
  | stderrLine (s : String)
  | applyForce (id : String) (fx fy : Int)
  | printErrorPayload (payload : Expr)
  | gcCollect (root : Expr)
  | logPush (line : String) (c : Color)
  | editClean
deriving DecidableEq, Repr

/-- Translated from console.c:55-58 — the raw-argument destructuring of
`rect_apply_force`:
`rect_id = CAR(args).atom->str`, `vector = CAR(CDR(args))`,
`force_x = CAR(vector).atom->num`, `force_y = CDR(vector).atom->num`.
Each read through the wrong union member is undefined behavior,
modelled as `none`; note that `force_y` reads the *cdr* of the vector
expression, not its second element. -/
def rafArgs (args : Expr) : Option (String × Int × Int) :=
  match car args with
  | none => none
  | some first =>
      match atomStr first with
      | none => none
      | some rect_id =>
          match cdr args with
          | none => none
          | some rest =>
              match car rest with
              | none => none
              | some vector =>
                  match car vector with
                  | none => none
                  | some vx =>
                      match atomNum vx with
                      | none => none
                      | some force_x =>
                          match cdr vector with
                          | none => none
                          | some vy =>
                              match atomNum vy with
                              | none => none
                              | some force_y => some (rect_id, force_x, force_y)

/-- Translated from `rect_apply_force` (console.c:48-72): destructure
the raw args, print them as an S-expression, look the body up by name;
when found, print and apply the force; when missing, report on stderr;
either way return `eval_success(NIL)`.  (The C callback also receives
the `Gc` and `Scope` pointers; it only asserts on them, so the model
omits them.) -/
def rect_apply_force (level : Level) (args : Expr) :
    Option (EvalResult × Level × List Ev) :=
  match rafArgs args with
  | none => none
  | some (rect_id, force_x, force_y) =>
      match level_rigid_rect level rect_id with
      | some _ =>
          some (eval_success Expr.nil,
                level_apply_force level rect_id force_x force_y,
                [Ev.stdoutLine (toSexpr args),
                 Ev.stdoutLine ("Found rect `" ++ rect_id ++ "`"),
                 Ev.stdoutLine ("Applying force (" ++ toString force_x ++ ", "
                   ++ toString force_y ++ ")"),
                 Ev.applyForce rect_id force_x force_y])
      | none =>
          some (eval_success Expr.nil, level,
                [Ev.stdoutLine (toSexpr args),
                 Ev.stderrLine ("Could not find rigid_rect `" ++ rect_id ++ "`")])

/-- Dispatch of a `Native` value to its host function.  In the C the
context is the raw pointer captured at registration; the captured
pointer is the console's `Level` (console.c:102), so the model routes
the call to the console's level state. -/
def runNative (f : NativeName) (ctx : CtxHandle) (scope : Expr) (args : Expr)
    (level : Level) : Option (EvalResult × Level × List Ev) :=
  match f, ctx, scope with
  | NativeName.rect_apply_force, CtxHandle.theLevel, _ => rect_apply_force level args

/-- Modelled from the spec: §4.4 Evaluator — `Nil`, `Number`, `String`
are self-evaluating; a `Symbol` resolves via lookup, unbound being a
failure whose payload is the symbol itself; a `Pair` is an application
form: a head symbol resolving to a `Native` invokes the callback with
the *unevaluated tail*, the scope, and the current level (heap identity
is not modelled); a non-callable head or a head bound to a non-Native
value is a failure carrying the head expression.  (The spec leaves a
bare `Native` expression unspecified; it is modelled self-evaluating;
no claim depends on it.) -/
def eval (scope : Expr) (level : Level) (e : Expr) :
    Option (EvalResult × Level × List Ev) :=
  match e with
  | Expr.nil => some (eval_success Expr.nil, level, [])
  | Expr.number n => some (eval_success (Expr.number n), level, [])
  | Expr.str s => some (eval_success (Expr.str s), level, [])
  | Expr.native f ctx => some (eval_success (Expr.native f ctx), level, [])
  | Expr.symbol s =>
      match scopeLookup scope s with
      | some v => some (eval_success v, level, [])
      | none => some (EvalResult.failure (Expr.symbol s), level, [])
  | Expr.cons head tail =>
      match head with
      | Expr.symbol s =>
          match scopeLookup scope s with
          | some (Expr.native f ctx) => runNative f ctx scope tail level
          | _ => some (EvalResult.failure head, level, [])
      | _ => some (EvalResult.failure head, level, [])

/-- Console state: the scope chain expression, the level handle, the
edit field text, and the scroll-back log (console.c:31-40; UI-only
fields omitted). -/
structure Console where
  scopeExpr : Expr
  level : Level
  editField : String
  log : List (String × Color)
deriving DecidableEq, Repr

/-- Translated from `create_console` (console.c:95-102): the scope chain
starts as `CONS(NIL, NIL)` and `set_scope_value` binds the symbol
`"rect-apply-force"` to `NATIVE(rect_apply_force, level)`. -/
def create_console_scope : Expr :=
  set_scope_value (Expr.cons Expr.nil Expr.nil)
    (Expr.symbol "rect-apply-force")
    (Expr.native NativeName.rect_apply_force CtxHandle.theLevel)

/-- Translated from `create_console` (console.c:74-127), restricted to
the core state: fresh scope with the single native registration, the
level handle, empty edit field and log. -/
def create_console (level : Level) : Console :=
  { scopeExpr := create_console_scope
    level := level
    editField := ""
    log := [] }

/-- The text printed for an eval error (console.c:166-168):
`printf("Error:\t")`, then the payload through the S-expression
serializer, then a newline. -/
def evalErrorText (payload : Expr) : String :=
  "Error:\t" ++ toSexpr payload ++ "\n"

/-- Events of the eval-error report (console.c:164-169): present exactly
when the result is a failure, printing the failure payload. -/
def evalErrorEvs : EvalResult → List Ev
  | EvalResult.success _ => []
  | EvalResult.failure payload => [Ev.printErrorPayload payload]

/-- Incoming UI events, abstracted to the cases console.c:138-141
distinguishes: a RETURN keydown versus anything else. -/
inductive SdlEvent where
  | keyReturn
  | other
deriving DecidableEq, Repr

/-- Translated from `console_handle_event` (console.c:135-186).  On
RETURN: read the edit field; on parse error log the source line and the
message, clear the field, return 0; on parse success evaluate, report an
eval failure by printing its payload, call `gc_collect` with the scope
chain expression as root, log the line, clear the field, return 0.
Other events go to the edit field (out of core, no trace).  `none`
marks a run into C undefined behavior inside the native callback. -/
def console_handle_event (c : Console) (ev : SdlEvent) :
    Option (Int × Console × List Ev) :=
  match ev with
  | SdlEvent.other => some (0, c, [])
  | SdlEvent.keyReturn =>
      match read_expr_from_string c.editField with
      | ParseResult.err msg =>
          some (0,
            { c with
                log := c.log ++ [(c.editField, Color.error), (msg, Color.error)]
                editField := "" },
            [Ev.readCall c.editField,
             Ev.logPush c.editField Color.error,
             Ev.logPush msg Color.error,
             Ev.editClean])
      | ParseResult.ok e =>
          match eval c.scopeExpr c.level e with
          | none => none
          | some (r, level2, evs) =>
              some (0,
                { c with
                    level := level2
                    log := c.log ++ [(c.editField, Color.foreground)]
                    editField := "" },
                [Ev.readCall c.editField, Ev.evalCall e]
                  ++ evs
                  ++ evalErrorEvs r
                  ++ [Ev.gcCollect c.scopeExpr,
                      Ev.logPush c.editField Color.foreground,
                      Ev.editClean])

/-- Stdout transcript of a trace: `stdoutLine` events print their text
and a `printErrorPayload` event prints `evalErrorText` of its payload. -/
def stdoutOf (tr : List Ev) : List String :=
  tr.filterMap (fun ev =>
    match ev with
    | Ev.stdoutLine s => some s
    | Ev.printErrorPayload payload => some (evalErrorText payload)
    | _ => none)

/-- Recognizes a `gcCollect` event. -/
def Ev.isGc : Ev → Bool
  | Ev.gcCollect _ => true
  | _ => false

/-- Recognizes an `evalCall` event. -/
def Ev.isEvalCall : Ev → Bool
  | Ev.evalCall _ => true
  | _ => false

/-- Recognizes the side-effect events a native callback can emit. -/
def Ev.isEffect : Ev → Bool
  | Ev.stdoutLine _ => true
  | Ev.stderrLine _ => true
  | Ev.applyForce _ _ _ => true
  | _ => false

/-- Recognizes the events that may sit between the evaluator call and
the collect call: native side effects and the eval-error print. -/
def Ev.isEffectOrErrorPrint : Ev → Bool
  | Ev.printErrorPayload _ => true
  | e => Ev.isEffect e

/-- Scenario A input line (§8 of the spec). -/
def scenarioA : String := "(rect-apply-force \"player\" (10 0))"

/-- Scenario A level: one entity named "player" with no applied force. -/
def levelA : Level := [{ name := "player", force_x := 0, force_y := 0 }]

/-- The raw argument list the reader produces for Scenario A:
`("player" (10 0))` with the vector as a proper two-element list. -/
def argsA : Expr :=
  Expr.cons (Expr.str "player")
    (Expr.cons (Expr.cons (Expr.number 10) (Expr.cons (Expr.number 0) Expr.nil)) Expr.nil)

/-- Console for Scenario A: fresh console over `levelA` with the
Scenario A line in the edit field. -/
def consoleA : Console := { create_console levelA with editField := scenarioA }

/-- Console for Scenario B: fresh console with `"(unbound-name)"` in the
edit field. -/
def consoleB : Console := { create_console [] with editField := "(unbound-name)" }

/-- The expression Scenario B's input parses to. -/
def unboundExpr : Expr := Expr.cons (Expr.symbol "unbound-name") Expr.nil

/-- Console for Scenario C: fresh console with the unbalanced line
`"(1 2"` in the edit field. -/
def consoleC : Console := { create_console [] with editField := "(1 2" }

/-- Argument list with the force vector written as a dotted pair
`("player" (10 . 0))`: the only shape on which the callback's
destructuring (console.c:55-58) is fully defined. -/
def argsW : Expr :=
  Expr.cons (Expr.str "player")
    (Expr.cons (Expr.cons (Expr.number 10) (Expr.number 0)) Expr.nil)

/-- A list filters to nil under a predicate that is false on all its
members. -/
lemma filter_eq_nil_of_forall {α : Type} {p : α → Bool} {l : List α}
    (h : ∀ x ∈ l, p x = false) : l.filter p = [] := by
  induction l with
  | nil => rfl
  | cons a t ih =>
      have ha : p a = false := h a (List.mem_cons_self a t)
      simp [List.filter_cons, ha, ih (fun x hx => h x (List.mem_cons_of_mem a hx))]

/-- Native side-effect events are not collect events. -/
lemma isGc_false_of_isEffect {x : Ev} (h : Ev.isEffect x = true) :
    Ev.isGc x = false := by
  cases x <;> simp_all [Ev.isEffect, Ev.isGc]

/-- Native side-effect events are not evaluator-call events. -/
lemma isEvalCall_false_of_isEffect {x : Ev} (h : Ev.isEffect x = true) :
    Ev.isEvalCall x = false := by
  cases x <;> simp_all [Ev.isEffect, Ev.isEvalCall]

/-- Native side effects are among the events allowed between eval and
collect. -/
lemma isEffectOrErrorPrint_of_isEffect {x : Ev} (h : Ev.isEffect x = true) :
    Ev.isEffectOrErrorPrint x = true := by
  cases x <;> simp_all [Ev.isEffect, Ev.isEffectOrErrorPrint]

/-- Every event `rect_apply_force` emits is a native side effect
(stdout, stderr, or force application): in particular the callback
itself never triggers a collection. -/
lemma rect_apply_force_effects {level : Level} {args : Expr} {r : EvalResult}
    {level2 : Level} {evs : List Ev}
    (h : rect_apply_force level args = some (r, level2, evs)) :
    ∀ x ∈ evs, Ev.isEffect x = true := by
  cases hargs : rafArgs args with
  | none => simp only [rect_apply_force, hargs] at h; exact absurd h (by simp)
  | some v =>
      obtain ⟨rid, fx, fy⟩ := v
      cases hfind : level_rigid_rect level rid with
      | some rr =>
          simp only [rect_apply_force, hargs, hfind, Option.some.injEq,
            Prod.mk.injEq] at h
          obtain ⟨-, -, h3⟩ := h
          subst h3
          intro x hx
          simp only [List.mem_cons, List.not_mem_nil, or_false] at hx
          rcases hx with rfl | rfl | rfl | rfl <;> rfl
      | none =>
          simp only [rect_apply_force, hargs, hfind, Option.some.injEq,
            Prod.mk.injEq] at h
          obtain ⟨-, -, h3⟩ := h
          subst h3
          intro x hx
          simp only [List.mem_cons, List.not_mem_nil, or_false] at hx
          rcases hx with rfl | rfl <;> rfl

/-- Every event the evaluator emits is a native side effect: the
evaluator itself never reads, collects, or re-enters itself; only the
one native callback produces events. -/
lemma eval_effects {scope : Expr} {level : Level} {e : Expr} {r : EvalResult}
    {level2 : Level} {evs : List Ev}
    (h : eval scope level e = some (r, level2, evs)) :
    ∀ x ∈ evs, Ev.isEffect x = true := by
  cases e with
  | nil =>
      simp only [eval, Option.some.injEq, Prod.mk.injEq] at h
      obtain ⟨-, -, h3⟩ := h; subst h3; intro x hx; exact absurd hx (List.not_mem_nil x)
  | number n =>
      simp only [eval, Option.some.injEq, Prod.mk.injEq] at h
      obtain ⟨-, -, h3⟩ := h; subst h3; intro x hx; exact absurd hx (List.not_mem_nil x)
  | str s =>
      simp only [eval, Option.some.injEq, Prod.mk.injEq] at h
      obtain ⟨-, -, h3⟩ := h; subst h3; intro x hx; exact absurd hx (List.not_mem_nil x)
  | native f ctx =>
      simp only [eval, Option.some.injEq, Prod.mk.injEq] at h
      obtain ⟨-, -, h3⟩ := h; subst h3; intro x hx; exact absurd hx (List.not_mem_nil x)
  | symbol s =>
      cases hl : scopeLookup scope s with
      | some v =>
          simp only [eval, hl, Option.some.injEq, Prod.mk.injEq] at h
          obtain ⟨-, -, h3⟩ := h; subst h3; intro x hx; exact absurd hx (List.not_mem_nil x)
      | none =>
          simp only [eval, hl, Option.some.injEq, Prod.mk.injEq] at h
          obtain ⟨-, -, h3⟩ := h; subst h3; intro x hx; exact absurd hx (List.not_mem_nil x)
  | cons head tail =>
      cases head with
      | symbol s =>
          cases hl : scopeLookup scope s with
          | some v =>
              cases v with
              | native f ctx =>
                  cases f; cases ctx
                  simp only [eval, hl, runNative] at h
                  exact rect_apply_force_effects h
              | nil =>
                  simp only [eval, hl, Option.some.injEq, Prod.mk.injEq] at h
                  obtain ⟨-, -, h3⟩ := h; subst h3
                  intro x hx; exact absurd hx (List.not_mem_nil x)
              | number n =>
                  simp only [eval, hl, Option.some.injEq, Prod.mk.injEq] at h
                  obtain ⟨-, -, h3⟩ := h; subst h3
                  intro x hx; exact absurd hx (List.not_mem_nil x)
              | symbol s2 =>
                  simp only [eval, hl, Option.some.injEq, Prod.mk.injEq] at h
                  obtain ⟨-, -, h3⟩ := h; subst h3
                  intro x hx; exact absurd hx (List.not_mem_nil x)
              | str s2 =>
                  simp only [eval, hl, Option.some.injEq, Prod.mk.injEq] at h
                  obtain ⟨-, -, h3⟩ := h; subst h3
                  intro x hx; exact absurd hx (List.not_mem_nil x)
              | cons a d =>
                  simp only [eval, hl, Option.some.injEq, Prod.mk.injEq] at h
                  obtain ⟨-, -, h3⟩ := h; subst h3
                  intro x hx; exact absurd hx (List.not_mem_nil x)
          | none =>
              simp only [eval, hl, Option.some.injEq, Prod.mk.injEq] at h
              obtain ⟨-, -, h3⟩ := h; subst h3
              intro x hx; exact absurd hx (List.not_mem_nil x)
      | nil =>
          simp only [eval, Option.some.injEq, Prod.mk.injEq] at h
          obtain ⟨-, -, h3⟩ := h; subst h3; intro x hx; exact absurd hx (List.not_mem_nil x)
      | number n =>
          simp only [eval, Option.some.injEq, Prod.mk.injEq] at h
          obtain ⟨-, -, h3⟩ := h; subst h3; intro x hx; exact absurd hx (List.not_mem_nil x)
      | str s2 =>
          simp only [eval, Option.some.injEq, Prod.mk.injEq] at h
          obtain ⟨-, -, h3⟩ := h; subst h3; intro x hx; exact absurd hx (List.not_mem_nil x)
      | native f ctx =>
          simp only [eval, Option.some.injEq, Prod.mk.injEq] at h
          obtain ⟨-, -, h3⟩ := h; subst h3; intro x hx; exact absurd hx (List.not_mem_nil x)
      | cons a d =>
          simp only [eval, Option.some.injEq, Prod.mk.injEq] at h
          obtain ⟨-, -, h3⟩ := h; subst h3; intro x hx; exact absurd hx (List.not_mem_nil x)

/-- The events the eval-error report emits are never collect events,
eval calls, or native effects: only the error-payload print. -/
lemma evalErrorEvs_only_print {r : EvalResult} :
    ∀ x ∈ evalErrorEvs r, ∃ payload, x = Ev.printErrorPayload payload := by
  cases r with
  | success e => intro x hx; exact absurd hx (List.not_mem_nil x)
  | failure payload =>
      intro x hx
      simp only [evalErrorEvs, List.mem_cons, List.not_mem_nil, or_false] at hx
      exact ⟨payload, hx⟩

/-- The native callback can only ever return a passing result:
both branches of console.c:63-71 fall through to
`return eval_success(NIL(gc))`. -/
lemma rect_apply_force_result {level : Level} {args : Expr} {r : EvalResult}
    {level2 : Level} {evs : List Ev}
    (h : rect_apply_force level args = some (r, level2, evs)) :
    r = eval_success Expr.nil := by
  cases hargs : rafArgs args with
  | none =>
      simp only [rect_apply_force, hargs] at h
      exact Option.noConfusion h
  | some v =>
      obtain ⟨rid, fx, fy⟩ := v
      cases hfind : level_rigid_rect level rid with
      | some rr =>
          simp only [rect_apply_force, hargs, hfind, Option.some.injEq,
            Prod.mk.injEq] at h
          exact h.1.symm
      | none =>
          simp only [rect_apply_force, hargs, hfind, Option.some.injEq,
            Prod.mk.injEq] at h
          exact h.1.symm

/-- Every error message the reader's token parser can produce is
non-empty, at either entry point and any fuel. -/
lemma parse_messages_nonempty :
    ∀ fuel ts m,
      (parseOne fuel ts = Except.error m → m ≠ "") ∧
      (parseList fuel ts = Except.error m → m ≠ "") := by
  intro fuel
  induction fuel with
  | zero =>
      intro ts m
      refine ⟨fun h => ?_, fun h => ?_⟩
      · simp only [parseOne, Except.error.injEq] at h
        subst h; decide
      · simp only [parseList, Except.error.injEq] at h
        subst h; decide
  | succ n ih =>
      intro ts m
      refine ⟨fun h => ?_, fun h => ?_⟩
      · cases ts with
        | nil =>
            simp only [parseOne, Except.error.injEq] at h
            subst h; decide
        | cons t rest =>
            cases t with
            | atomTok s =>
                simp only [parseOne] at h
                exact Except.noConfusion h
            | strTok s =>
                simp only [parseOne] at h
                exact Except.noConfusion h
            | rparen =>
                simp only [parseOne, Except.error.injEq] at h
                subst h; decide
            | lparen =>
                simp only [parseOne] at h
                exact (ih rest m).2 h
      · cases ts with
        | nil =>
            simp only [parseList, Except.error.injEq] at h
            subst h; decide
        | cons t rest =>
            cases t with
            | rparen =>
                simp only [parseList] at h
                exact Except.noConfusion h
            | lparen =>
                cases h1 : parseOne n (Token.lparen :: rest) with
                | error m1 =>
                    simp only [parseList, h1, Except.error.injEq] at h
                    subst h
                    exact (ih (Token.lparen :: rest) m1).1 h1
                | ok v =>
                    obtain ⟨headE, rest1⟩ := v
                    cases h2 : parseList n rest1 with
                    | error m2 =>
                        simp only [parseList, h1, h2, Except.error.injEq] at h
                        subst h
                        exact (ih rest1 m2).2 h2
                    | ok v2 =>
                        obtain ⟨tailE, rest2⟩ := v2
                        simp only [parseList, h1, h2] at h
                        exact Except.noConfusion h
            | atomTok s =>
                cases h1 : parseOne n (Token.atomTok s :: rest) with
                | error m1 =>
                    simp only [parseList, h1, Except.error.injEq] at h
                    subst h
                    exact (ih (Token.atomTok s :: rest) m1).1 h1
                | ok v =>
                    obtain ⟨headE, rest1⟩ := v
                    cases h2 : parseList n rest1 with
                    | error m2 =>
                        simp only [parseList, h1, h2, Except.error.injEq] at h
                        subst h
                        exact (ih rest1 m2).2 h2
                    | ok v2 =>
                        obtain ⟨tailE, rest2⟩ := v2
                        simp only [parseList, h1, h2] at h
                        exact Except.noConfusion h
            | strTok s =>
                cases h1 : parseOne n (Token.strTok s :: rest) with
                | error m1 =>
                    simp only [parseList, h1, Except.error.injEq] at h
                    subst h
                    exact (ih (Token.strTok s :: rest) m1).1 h1
                | ok v =>
                    obtain ⟨headE, rest1⟩ := v
                    cases h2 : parseList n rest1 with
                    | error m2 =>
                        simp only [parseList, h1, h2, Except.error.injEq] at h
                        subst h
                        exact (ih rest1 m2).2 h2
                    | ok v2 =>
                        obtain ⟨tailE, rest2⟩ := v2
                        simp only [parseList, h1, h2] at h
                        exact Except.noConfusion h

/-- Every failure message `read_expr_from_string` can return is
non-empty. -/
lemma read_error_message_nonempty {s msg : String}
    (h : read_expr_from_string s = ParseResult.err msg) : msg ≠ "" := by
  cases h1 : parseOne (2 * (tokenize s).length + 2) (tokenize s) with
  | ok v =>
      obtain ⟨e, rest⟩ := v
      simp only [read_expr_from_string, h1] at h
      exact ParseResult.noConfusion h
  | error m =>
      simp only [read_expr_from_string, h1, ParseResult.err.injEq] at h
      subst h
      exact (parse_messages_nonempty _ _ m).1 h1

/-- C1: the claim fails on the code.  Scenario A's input parses to the
proper list `("player" (10 0))`, so the cdr of the vector expression is
the pair `(0)`, not the number `0`; `force_y = CDR(vector).atom->num`
(console.c:58) therefore reads a `Cons` cell through the number-atom
union member — type confusion / undefined behavior — instead of taking
the y component from the second element.  In the model every step up to
that read succeeds and the read itself is undefined, so the whole round
is undefined: the entity's force does not become (10, 0). -/
theorem scenarioA_force_y_read_is_type_confused :
    read_expr_from_string scenarioA =
      ParseResult.ok (Expr.cons (Expr.symbol "rect-apply-force") argsA) ∧
    cdr (Expr.cons (Expr.number 10) (Expr.cons (Expr.number 0) Expr.nil)) =
      some (Expr.cons (Expr.number 0) Expr.nil) ∧
    atomNum (Expr.cons (Expr.number 0) Expr.nil) = none ∧
    rafArgs argsA = none ∧
    rect_apply_force levelA argsA = none ∧
    console_handle_event consoleA SdlEvent.keyReturn = none :=
  ⟨by decide, by decide, by decide, by decide, by decide, by decide⟩

/-- C2: whenever the callback's raw-argument destructuring is defined
and `level_rigid_rect` finds no entity under the extracted name, the
callback reports on stderr and still returns `eval_success(NIL)`, with
the `is_error` flag clear — the EvalResult failure path is never taken
and the level is untouched. -/
theorem raf_missing_entity_stderr_and_success_nil
    (level : Level) (args : Expr) (rect_id : String) (fx fy : Int)
    (hargs : rafArgs args = some (rect_id, fx, fy))
    (hmiss : level_rigid_rect level rect_id = none) :
    rect_apply_force level args =
      some (eval_success Expr.nil, level,
        [Ev.stdoutLine (toSexpr args),
         Ev.stderrLine ("Could not find rigid_rect `" ++ rect_id ++ "`")]) ∧
    (eval_success Expr.nil).is_error = false := by
  refine ⟨?_, rfl⟩
  simp only [rect_apply_force, hargs, hmiss]

/-- Witness for C2 at the dotted-pair argument list `("player" (10 . 0))`
over the empty level. -/
theorem raf_missing_entity_stderr_and_success_nil_witness :
    rafArgs argsW = some ("player", 10, 0) ∧
    level_rigid_rect [] "player" = none ∧
    (rect_apply_force [] argsW =
      some (eval_success Expr.nil, [],
        [Ev.stdoutLine (toSexpr argsW),
         Ev.stderrLine ("Could not find rigid_rect `" ++ "player" ++ "`")]) ∧
     (eval_success Expr.nil).is_error = false) :=
  ⟨by decide, by decide,
   raf_missing_entity_stderr_and_success_nil [] argsW "player" 10 0 (by decide) (by decide)⟩

/-- The console state after the Scenario B round. -/
def consoleB2 : Console :=
  { consoleB with
      log := [("(unbound-name)", Color.foreground)]
      editField := "" }

/-- The event trace of the Scenario B round. -/
def traceB : List Ev :=
  [Ev.readCall "(unbound-name)",
   Ev.evalCall unboundExpr,
   Ev.printErrorPayload (Expr.symbol "unbound-name"),
   Ev.gcCollect create_console_scope,
   Ev.logPush "(unbound-name)" Color.foreground,
   Ev.editClean]

/-- C3: for every expression whose evaluation fails, the EvalResult
failure payload is the offending expression itself — the whole
expression for an unbound symbol, the offending head for an application
form — never a diagnostic string (the payload is an `Expr` by
construction of `EvalResult`); in particular `"(unbound-name)"` yields
`is_error = true` with payload exactly the symbol `unbound-name`, and
the console renders that payload through the S-expression
serializer. -/
theorem eval_failure_payload_is_offending_expr
    (scope : Expr) (level : Level) (e p : Expr) (level2 : Level) (evs : List Ev)
    (h : eval scope level e = some (EvalResult.failure p, level2, evs)) :
    (p = e ∨ ∃ t, e = Expr.cons p t) ∧
    read_expr_from_string "(unbound-name)" = ParseResult.ok unboundExpr ∧
    eval create_console_scope [] unboundExpr =
      some (EvalResult.failure (Expr.symbol "unbound-name"), [], []) ∧
    (EvalResult.failure (Expr.symbol "unbound-name")).is_error = true ∧
    console_handle_event consoleB SdlEvent.keyReturn = some (0, consoleB2, traceB) ∧
    Ev.printErrorPayload (Expr.symbol "unbound-name") ∈ traceB ∧
    evalErrorText (Expr.symbol "unbound-name") ∈ stdoutOf traceB ∧
    evalErrorText (Expr.symbol "unbound-name") = "Error:\tunbound-name\n" := by
  refine ⟨?_, by decide, by decide, by decide, by decide, by decide, by decide, by decide⟩
  cases e with
  | nil => simp [eval, eval_success] at h
  | number n => simp [eval, eval_success] at h
  | str s => simp [eval, eval_success] at h
  | native f ctx => simp [eval, eval_success] at h
  | symbol s =>
      cases hl : scopeLookup scope s with
      | some v => simp [eval, hl, eval_success] at h
      | none =>
          simp only [eval, hl, Option.some.injEq, Prod.mk.injEq,
            EvalResult.failure.injEq] at h
          exact Or.inl h.1.symm
  | cons head tail =>
      cases head with
      | symbol s =>
          cases hl : scopeLookup scope s with
          | some v =>
              cases v with
              | native f ctx =>
                  cases f; cases ctx
                  simp only [eval, hl, runNative] at h
                  exact absurd (rect_apply_force_result h) (by simp [eval_success])
              | nil =>
                  simp only [eval, hl, Option.some.injEq, Prod.mk.injEq,
                    EvalResult.failure.injEq] at h
                  exact Or.inr ⟨tail, by rw [h.1]⟩
              | number n =>
                  simp only [eval, hl, Option.some.injEq, Prod.mk.injEq,
                    EvalResult.failure.injEq] at h
                  exact Or.inr ⟨tail, by rw [h.1]⟩
              | symbol s2 =>
                  simp only [eval, hl, Option.some.injEq, Prod.mk.injEq,
                    EvalResult.failure.injEq] at h
                  exact Or.inr ⟨tail, by rw [h.1]⟩
              | str s2 =>
                  simp only [eval, hl, Option.some.injEq, Prod.mk.injEq,
                    EvalResult.failure.injEq] at h
                  exact Or.inr ⟨tail, by rw [h.1]⟩
              | cons a d =>
                  simp only [eval, hl, Option.some.injEq, Prod.mk.injEq,
                    EvalResult.failure.injEq] at h
                  exact Or.inr ⟨tail, by rw [h.1]⟩
          | none =>
              simp only [eval, hl, Option.some.injEq, Prod.mk.injEq,
                EvalResult.failure.injEq] at h
              exact Or.inr ⟨tail, by rw [h.1]⟩
      | nil =>
          simp only [eval, Option.some.injEq, Prod.mk.injEq,
            EvalResult.failure.injEq] at h
          exact Or.inr ⟨tail, by rw [h.1]⟩
      | number n =>
          simp only [eval, Option.some.injEq, Prod.mk.injEq,
            EvalResult.failure.injEq] at h
          exact Or.inr ⟨tail, by rw [h.1]⟩
      | str s2 =>
          simp only [eval, Option.some.injEq, Prod.mk.injEq,
            EvalResult.failure.injEq] at h
          exact Or.inr ⟨tail, by rw [h.1]⟩
      | native f ctx =>
          simp only [eval, Option.some.injEq, Prod.mk.injEq,
            EvalResult.failure.injEq] at h
          exact Or.inr ⟨tail, by rw [h.1]⟩
      | cons a d =>
          simp only [eval, Option.some.injEq, Prod.mk.injEq,
            EvalResult.failure.injEq] at h
          exact Or.inr ⟨tail, by rw [h.1]⟩

/-- Witness for C3 at Scenario B's failing expression. -/
theorem eval_failure_payload_is_offending_expr_witness :
    eval create_console_scope [] unboundExpr =
      some (EvalResult.failure (Expr.symbol "unbound-name"), [], []) ∧
    ((Expr.symbol "unbound-name" = unboundExpr ∨
        ∃ t, unboundExpr = Expr.cons (Expr.symbol "unbound-name") t) ∧
     read_expr_from_string "(unbound-name)" = ParseResult.ok unboundExpr ∧
     eval create_console_scope [] unboundExpr =
       some (EvalResult.failure (Expr.symbol "unbound-name"), [], []) ∧
     (EvalResult.failure (Expr.symbol "unbound-name")).is_error = true ∧
     console_handle_event consoleB SdlEvent.keyReturn = some (0, consoleB2, traceB) ∧
     Ev.printErrorPayload (Expr.symbol "unbound-name") ∈ traceB ∧
     evalErrorText (Expr.symbol "unbound-name") ∈ stdoutOf traceB ∧
     evalErrorText (Expr.symbol "unbound-name") = "Error:\tunbound-name\n") :=
  ⟨by decide,
   eval_failure_payload_is_offending_expr create_console_scope [] unboundExpr
     (Expr.symbol "unbound-name") [] [] (by decide)⟩

/-- C4: for every submitted line whose parse fails, the ParseResult
carries a non-empty message and no expression (`ParseResult.err` holds
only the message), and the console logs the offending source line and
the message in the error color, clears the edit field, and returns 0 —
the failure is recoverable, not fatal. -/
theorem parse_failure_nonempty_message_and_recovery
    (c : Console) (msg : String)
    (hp : read_expr_from_string c.editField = ParseResult.err msg) :
    msg ≠ "" ∧
    (read_expr_from_string c.editField).is_error = true ∧
    console_handle_event c SdlEvent.keyReturn =
      some (0,
        { c with
            log := c.log ++ [(c.editField, Color.error), (msg, Color.error)]
            editField := "" },
        [Ev.readCall c.editField, Ev.logPush c.editField Color.error,
         Ev.logPush msg Color.error, Ev.editClean]) := by
  refine ⟨read_error_message_nonempty hp, ?_, ?_⟩
  · rw [hp]; rfl
  · simp only [console_handle_event, hp]

/-- Witness for C4 at the unbalanced Scenario C line `"(1 2"`. -/
theorem parse_failure_nonempty_message_and_recovery_witness :
    read_expr_from_string consoleC.editField =
      ParseResult.err "unbalanced parentheses" ∧
    ("unbalanced parentheses" ≠ "" ∧
     (read_expr_from_string consoleC.editField).is_error = true ∧
     console_handle_event consoleC SdlEvent.keyReturn =
       some (0,
         { consoleC with
             log := consoleC.log ++ [(consoleC.editField, Color.error),
               ("unbalanced parentheses", Color.error)]
             editField := "" },
         [Ev.readCall consoleC.editField, Ev.logPush consoleC.editField Color.error,
          Ev.logPush "unbalanced parentheses" Color.error, Ev.editClean])) :=
  ⟨by decide,
   parse_failure_nonempty_message_and_recovery consoleC "unbalanced parentheses" (by decide)⟩

/-- C5: on a round whose line parses, the trace of the event handler
contains exactly one `gc_collect` call — explicitly placed by the
embedder after the evaluator call, never triggered from inside the
reader, the evaluator, or an allocation — and its root argument is the
scope chain expression. -/
theorem gc_collect_exactly_once_after_eval
    (c : Console) (e : Expr) (r : EvalResult) (level2 : Level) (evs : List Ev)
    (hp : read_expr_from_string c.editField = ParseResult.ok e)
    (he : eval c.scopeExpr c.level e = some (r, level2, evs)) :
    ∃ c2 pre post,
      console_handle_event c SdlEvent.keyReturn =
        some (0, c2, pre ++ Ev.gcCollect c.scopeExpr :: post) ∧
      Ev.evalCall e ∈ pre ∧
      pre.filter Ev.isGc = [] ∧
      post.filter Ev.isGc = [] := by
  refine ⟨{ c with
              level := level2
              log := c.log ++ [(c.editField, Color.foreground)]
              editField := "" },
          [Ev.readCall c.editField, Ev.evalCall e] ++ evs ++ evalErrorEvs r,
          [Ev.logPush c.editField Color.foreground, Ev.editClean],
          ?_, ?_, ?_, ?_⟩
  · simp only [console_handle_event, hp, he]
  · simp
  · rw [List.filter_append, List.filter_append]
    have h2 : evs.filter Ev.isGc = [] :=
      filter_eq_nil_of_forall (fun x hx => isGc_false_of_isEffect (eval_effects he x hx))
    have h3 : (evalErrorEvs r).filter Ev.isGc = [] := by
      cases r <;> rfl
    rw [h2, h3]
    rfl
  · rfl

/-- Witness for C5 at Scenario B's console. -/
theorem gc_collect_exactly_once_after_eval_witness :
    read_expr_from_string consoleB.editField = ParseResult.ok unboundExpr ∧
    eval consoleB.scopeExpr consoleB.level unboundExpr =
      some (EvalResult.failure (Expr.symbol "unbound-name"), [], []) ∧
    (∃ c2 pre post,
      console_handle_event consoleB SdlEvent.keyReturn =
        some (0, c2, pre ++ Ev.gcCollect consoleB.scopeExpr :: post) ∧
      Ev.evalCall unboundExpr ∈ pre ∧
      pre.filter Ev.isGc = [] ∧
      post.filter Ev.isGc = []) :=
  ⟨by decide, by decide,
   gc_collect_exactly_once_after_eval consoleB unboundExpr
     (EvalResult.failure (Expr.symbol "unbound-name")) [] [] (by decide) (by decide)⟩

/-- C6: a RETURN key event whose line parses runs the whole sequence
inside the one handler invocation, in program order: the reader call
first, the evaluator call second, then only native side effects and the
error print, then the collect call — the handler is a single pure
function, so the sequence completes synchronously within the event with
no suspension point. -/
theorem return_event_runs_read_eval_collect_in_order
    (c : Console) (e : Expr) (r : EvalResult) (level2 : Level) (evs : List Ev)
    (hp : read_expr_from_string c.editField = ParseResult.ok e)
    (he : eval c.scopeExpr c.level e = some (r, level2, evs)) :
    ∃ c2 mid post,
      console_handle_event c SdlEvent.keyReturn =
        some (0, c2,
          Ev.readCall c.editField :: Ev.evalCall e :: mid
            ++ Ev.gcCollect c.scopeExpr :: post) ∧
      (∀ x ∈ mid, Ev.isEffectOrErrorPrint x = true) := by
  refine ⟨{ c with
              level := level2
              log := c.log ++ [(c.editField, Color.foreground)]
              editField := "" },
          evs ++ evalErrorEvs r,
          [Ev.logPush c.editField Color.foreground, Ev.editClean],
          ?_, ?_⟩
  · simp only [console_handle_event, hp, he]
    simp [List.append_assoc]
  · intro x hx
    rcases List.mem_append.mp hx with hx1 | hx2
    · exact isEffectOrErrorPrint_of_isEffect (eval_effects he x hx1)
    · obtain ⟨payload, rfl⟩ := evalErrorEvs_only_print x hx2
      rfl

/-- Console with a self-evaluating numeric line, for exercising the
successful-eval path. -/
def consoleD : Console := { create_console [] with editField := "10" }

/-- Witness for C6 at a numeric input line. -/
theorem return_event_runs_read_eval_collect_in_order_witness :
    read_expr_from_string consoleD.editField = ParseResult.ok (Expr.number 10) ∧
    eval consoleD.scopeExpr consoleD.level (Expr.number 10) =
      some (eval_success (Expr.number 10), [], []) ∧
    (∃ c2 mid post,
      console_handle_event consoleD SdlEvent.keyReturn =
        some (0, c2,
          Ev.readCall consoleD.editField :: Ev.evalCall (Expr.number 10) :: mid
            ++ Ev.gcCollect consoleD.scopeExpr :: post) ∧
      (∀ x ∈ mid, Ev.isEffectOrErrorPrint x = true)) :=
  ⟨by decide, by decide,
   return_event_runs_read_eval_collect_in_order consoleD (Expr.number 10)
     (eval_success (Expr.number 10)) [] [] (by decide) (by decide)⟩

/-- C9: when the submitted line fails to parse, the handler's trace for
that event contains no evaluator call and no collect call, and neither
the level nor the scope chain changes: the parse-time allocations stay
uncollected until a later successful round collects. -/
theorem parse_failure_skips_eval_and_collect
    (c : Console) (msg : String)
    (hp : read_expr_from_string c.editField = ParseResult.err msg) :
    ∃ c2 tr,
      console_handle_event c SdlEvent.keyReturn = some (0, c2, tr) ∧
      tr.filter Ev.isEvalCall = [] ∧
      tr.filter Ev.isGc = [] ∧
      c2.level = c.level ∧
      c2.scopeExpr = c.scopeExpr := by
  refine ⟨{ c with
              log := c.log ++ [(c.editField, Color.error), (msg, Color.error)]
              editField := "" },
          [Ev.readCall c.editField, Ev.logPush c.editField Color.error,
           Ev.logPush msg Color.error, Ev.editClean],
          ?_, rfl, rfl, rfl, rfl⟩
  simp only [console_handle_event, hp]

/-- Witness for C9 at Scenario C's console. -/
theorem parse_failure_skips_eval_and_collect_witness :
    read_expr_from_string consoleC.editField =
      ParseResult.err "unbalanced parentheses" ∧
    (∃ c2 tr,
      console_handle_event consoleC SdlEvent.keyReturn = some (0, c2, tr) ∧
      tr.filter Ev.isEvalCall = [] ∧
      tr.filter Ev.isGc = [] ∧
      c2.level = consoleC.level ∧
      c2.scopeExpr = consoleC.scopeExpr) :=
  ⟨by decide,
   parse_failure_skips_eval_and_collect consoleC "unbalanced parentheses" (by decide)⟩

/-- C10: on an evaluated round every collect event in the trace carries
the scope chain expression as its root — the root argument is the scope
chain alone, with the evaluation result not spliced in — and the only
event that touches the result after eval, the error-payload print, sits
strictly before the collect call, never after it. -/
theorem collect_root_is_scope_chain_and_result_uses_precede
    (c : Console) (e : Expr) (r : EvalResult) (level2 : Level) (evs : List Ev)
    (hp : read_expr_from_string c.editField = ParseResult.ok e)
    (he : eval c.scopeExpr c.level e = some (r, level2, evs)) :
    ∃ c2 pre post,
      console_handle_event c SdlEvent.keyReturn =
        some (0, c2, pre ++ Ev.gcCollect c.scopeExpr :: post) ∧
      (∀ root, Ev.gcCollect root ∈ pre ++ Ev.gcCollect c.scopeExpr :: post →
        root = c.scopeExpr) ∧
      (∀ payload, Ev.printErrorPayload payload ∉ post) := by
  refine ⟨{ c with
              level := level2
              log := c.log ++ [(c.editField, Color.foreground)]
              editField := "" },
          [Ev.readCall c.editField, Ev.evalCall e] ++ evs ++ evalErrorEvs r,
          [Ev.logPush c.editField Color.foreground, Ev.editClean],
          ?_, ?_, ?_⟩
  · simp only [console_handle_event, hp, he]
  · intro root hroot
    rcases List.mem_append.mp hroot with hpre | hrest
    · rcases List.mem_append.mp hpre with h01 | herr
      · rcases List.mem_append.mp h01 with hre | hevs
        · simp at hre
        · have hff := eval_effects he _ hevs
          simp [Ev.isEffect] at hff
      · obtain ⟨payload, hpay⟩ := evalErrorEvs_only_print _ herr
        exact absurd hpay (by simp)
    · rcases List.mem_cons.mp hrest with heq | hpost
      · injection heq with hr
      · simp at hpost
  · intro payload hmem
    simp at hmem

/-- Witness for C10 at Scenario B's console, whose round does print an
error payload. -/
theorem collect_root_is_scope_chain_and_result_uses_precede_witness :
    read_expr_from_string consoleB.editField = ParseResult.ok unboundExpr ∧
    eval consoleB.scopeExpr consoleB.level unboundExpr =
      some (EvalResult.failure (Expr.symbol "unbound-name"), [], []) ∧
    (∃ c2 pre post,
      console_handle_event consoleB SdlEvent.keyReturn =
        some (0, c2, pre ++ Ev.gcCollect consoleB.scopeExpr :: post) ∧
      (∀ root, Ev.gcCollect root ∈ pre ++ Ev.gcCollect consoleB.scopeExpr :: post →
        root = consoleB.scopeExpr) ∧
      (∀ payload, Ev.printErrorPayload payload ∉ post)) :=
  ⟨by decide, by decide,
   collect_root_is_scope_chain_and_result_uses_precede consoleB unboundExpr
     (EvalResult.failure (Expr.symbol "unbound-name")) [] [] (by decide) (by decide)⟩

/-- C7: after console creation the scope chain holds exactly one
binding: the hyphenated symbol `"rect-apply-force"` bound to the
`Native` value wrapping the `rect_apply_force` function together with
the opaque Level context handle; looking up any other name finds
nothing, so this binding is the sole script-visible host capability. -/
theorem console_scope_sole_binding_is_rect_apply_force (name : String) :
    scopeLookup create_console_scope name =
      if name = "rect-apply-force"
      then some (Expr.native NativeName.rect_apply_force CtxHandle.theLevel)
      else none := by
  by_cases h : name = "rect-apply-force"
  · subst h; decide
  · have h2 : ¬("rect-apply-force" = name) := fun hh => h hh.symm
    rw [if_neg h]
    simp [create_console_scope, set_scope_value, scopeLookup, lookupList, h2]

/-- C8: an application form whose head symbol resolves to a `Native`
value dispatches to the native callback fexpr-style: the callback
receives the unevaluated tail of the list together with the scope (and
the live level state standing in for the heap pointer), and no argument
is evaluated beforehand. -/
theorem eval_invokes_native_with_unevaluated_tail
    (scope : Expr) (level : Level) (s : String) (tail : Expr)
    (f : NativeName) (ctx : CtxHandle)
    (h : scopeLookup scope s = some (Expr.native f ctx)) :
    eval scope level (Expr.cons (Expr.symbol s) tail) =
      runNative f ctx scope tail level := by
  simp only [eval, h]

/-- Witness for C8 at the console scope and the dotted-pair argument
list. -/
theorem eval_invokes_native_with_unevaluated_tail_witness :
    scopeLookup create_console_scope "rect-apply-force" =
      some (Expr.native NativeName.rect_apply_force CtxHandle.theLevel) ∧
    eval create_console_scope [] (Expr.cons (Expr.symbol "rect-apply-force") argsW) =
      runNative NativeName.rect_apply_force CtxHandle.theLevel
        create_console_scope argsW [] :=
  ⟨by decide,
   eval_invokes_native_with_unevaluated_tail create_console_scope [] "rect-apply-force"
     argsW NativeName.rect_apply_force CtxHandle.theLevel (by decide)⟩

end NothingGame
